import Mathlib

/-!
# Issue field service of the Jira client (`jira/internal/issue_field_impl.go`)

A shallow embedding of the four operations `Gets`, `Create`, `Search` and
`Delete` of `internalIssueFieldServiceImpl`, of the facade `IssueFieldService`
and of the constructor `NewIssueFieldService`, together with the parts of the
Go standard library they rely on (`strconv.Itoa`, `strings.Join`,
`url.Values.Add`, `url.Values.Encode`, `url.QueryEscape`).

Go strings are byte sequences; they are embedded as lists of bytes.
The transport (`service.Client`) is an interface whose implementation lives
outside this file: it is a parameter, given by three state-passing functions.
Every invocation of a transport method is recorded in a trace.
-/

set_option maxRecDepth 100000

namespace IssueField

/-! ## Go strings -/

/-- One byte of a Go string. -/
abbrev Byte := Fin 256

/-- A Go `string`: an immutable sequence of bytes. -/
abbrev GoString := List Byte

/-- The bytes of a string literal (its UTF-8 encoding, as in Go source text). -/
def str (s : String) : GoString :=
  (s.data.flatMap String.utf8EncodeChar).map fun b => b.val

/-- Go's `strings.Join(elems, sep)`. -/
def Join : List GoString → GoString → GoString
  | [], _ => []
  | [a], _ => a
  | a :: b :: rest, sep => a ++ sep ++ Join (b :: rest) sep

/-- Digits of `n` in base ten, most significant first, pushed in front of
`acc`; `fuel` bounds the number of digits produced. -/
def decimalDigits : Nat → Nat → GoString → GoString
  | 0, _, acc => acc
  | fuel + 1, n, acc =>
    let acc1 : GoString := Fin.ofNat (48 + n % 10) :: acc
    if n / 10 = 0 then acc1 else decimalDigits fuel (n / 10) acc1

/-- Decimal rendering of a natural number (`"0"` for zero). -/
def natDecimal (n : Nat) : GoString := decimalDigits (n + 1) n []

/-- Go's `strconv.Itoa`: the decimal rendering of an integer, with a leading
minus sign for negative values. -/
def Itoa (i : Int) : GoString :=
  match i with
  | Int.ofNat n => natDecimal n
  | Int.negSucc n => (45 : Byte) :: natDecimal (n + 1)

/-! ## `net/url` -/

/-- Go's `shouldEscape(c, encodeQueryComponent)`: every byte except the
unreserved ones (letters, digits, `-`, `_`, `.`, `~`) is escaped. -/
def shouldEscape (c : Byte) : Bool :=
  if (97 ≤ c.val ∧ c.val ≤ 122) ∨ (65 ≤ c.val ∧ c.val ≤ 90) ∨ (48 ≤ c.val ∧ c.val ≤ 57) then
    false
  else if c.val = 45 ∨ c.val = 95 ∨ c.val = 46 ∨ c.val = 126 then
    false
  else
    true

/-- The table `upperhex = "0123456789ABCDEF"` of `net/url`. -/
def upperhex (n : Nat) : Byte :=
  if n < 10 then Fin.ofNat (48 + n) else Fin.ofNat (55 + n)

/-- What `escape` writes for one byte in mode `encodeQueryComponent`. -/
def escapeByte (c : Byte) : GoString :=
  if c = 32 then [43]
  else if shouldEscape c then [37, upperhex (c.val / 16), upperhex (c.val % 16)]
  else [c]

/-- Go's `url.QueryEscape`. -/
def QueryEscape (s : GoString) : GoString :=
  s.flatMap escapeByte

/-- Go's `ishex`. -/
def ishex (c : Byte) : Bool :=
  (48 ≤ c.val ∧ c.val ≤ 57) ∨ (97 ≤ c.val ∧ c.val ≤ 102) ∨ (65 ≤ c.val ∧ c.val ≤ 70)

/-- Go's `unhex`. -/
def unhex (c : Byte) : Nat :=
  if 48 ≤ c.val ∧ c.val ≤ 57 then c.val - 48
  else if 97 ≤ c.val ∧ c.val ≤ 102 then c.val - 97 + 10
  else if 65 ≤ c.val ∧ c.val ≤ 70 then c.val - 65 + 10
  else 0

/-- Go's `url.QueryUnescape`: `%XX` becomes the byte `XX`, `+` becomes a
space; a `%` not followed by two hexadecimal digits is an error (`none`). -/
def QueryUnescape : GoString → Option GoString
  | [] => some []
  | c :: rest =>
    if c = 37 then
      match rest with
      | h :: l :: rest2 =>
        if ishex h && ishex l then
          (QueryUnescape rest2).map fun t => Fin.ofNat (unhex h * 16 + unhex l) :: t
        else none
      | _ => none
    else if c = 43 then (QueryUnescape rest).map fun t => (32 : Byte) :: t
    else (QueryUnescape rest).map fun t => c :: t

/-- Go's `url.Values`, a `map[string][]string`: an association list with
pairwise distinct keys. -/
abbrev Values := List (GoString × List GoString)

/-- Go's `Values.Add`: `v[key] = append(v[key], value)`. -/
def Values.Add : Values → GoString → GoString → Values
  | [], key, value => [(key, [value])]
  | (k, vs) :: rest, key, value =>
    if k = key then (k, vs ++ [value]) :: rest
    else (k, vs) :: Values.Add rest key value

/-- The map lookup `v[key]` (the nil slice when the key is absent). -/
def Values.get : Values → GoString → List GoString
  | [], _ => []
  | (k, vs) :: rest, key => if k = key then vs else Values.get rest key

/-- Go's string comparison `a <= b`: lexicographic on bytes. -/
def stringLe : GoString → GoString → Bool
  | [], _ => true
  | _ :: _, [] => false
  | a :: as, b :: bs => if a.val < b.val then true else if b.val < a.val then false else stringLe as bs

/-- Insertion of a key in a sorted list of keys. -/
def insertKey (k : GoString) : List GoString → List GoString
  | [] => [k]
  | x :: xs => if stringLe k x then k :: x :: xs else x :: insertKey k xs

/-- Go's `slices.Sorted(maps.Keys(v))`: the keys in increasing order. -/
def sortedKeys (v : Values) : List GoString :=
  (v.map Prod.fst).foldr insertKey []

/-- One iteration of the inner loop of `Values.Encode`: an `&` unless the
buffer is empty, then the escaped key, `=`, and the escaped value. -/
def writePair (keyEscaped : GoString) (buf : GoString) (value : GoString) : GoString :=
  (if buf.length > 0 then buf ++ [(38 : Byte)] else buf) ++ keyEscaped ++ [(61 : Byte)]
    ++ QueryEscape value

/-- Go's `Values.Encode`: the pairs `key=value`, escaped, sorted by key and
separated by `&`. -/
def Values.Encode (v : Values) : GoString :=
  (sortedKeys v).foldl (fun buf k => (v.get k).foldl (writePair (QueryEscape k)) buf) []

/-- Go's `strings.Split(s, sep)` for a separator of one byte. -/
def Split (sep : Byte) : GoString → List GoString
  | [] => [[]]
  | c :: rest =>
    if c = sep then [] :: Split sep rest
    else
      match Split sep rest with
      | [] => [[c]]
      | seg :: segs => (c :: seg) :: segs

/-- Go's `strings.Cut(s, sep)` for a separator of one byte: the text before
the first separator and the text after it. -/
def Cut (sep : Byte) : GoString → GoString × GoString
  | [] => ([], [])
  | c :: rest => if c = sep then ([], rest) else (c :: (Cut sep rest).1, (Cut sep rest).2)

/-- What `url.ParseQuery` makes of one `&`-separated segment: nothing for an
empty segment, for one with a semicolon or for one with a bad escape, and
otherwise the unescaped key and value on both sides of the first `=`. -/
def parseSegment (seg : GoString) : Option (GoString × GoString) :=
  if (59 : Byte) ∈ seg then none
  else if seg = [] then none
  else
    match QueryUnescape (Cut 61 seg).1, QueryUnescape (Cut 61 seg).2 with
    | some k, some v => some (k, v)
    | _, _ => none

/-- Go's `url.ParseQuery`, the decoder of query strings: the decoded
parameters in their order of appearance. -/
def ParseQuery (query : GoString) : List (GoString × GoString) :=
  (Split 38 query).filterMap parseSegment

/-- The values that a decoded query string gives to the parameter `key`, one
for each of its occurrences. -/
def valuesOf (key : GoString) (pairs : List (GoString × GoString)) : List GoString :=
  (pairs.filter fun p => p.1 = key).map Prod.snd

/-- The parameters of `v` in the order in which `Values.Encode` writes them. -/
def sortedPairs (v : Values) : List (GoString × GoString) :=
  (sortedKeys v).flatMap fun k => (Values.get v k).map fun x => (k, x)

/-- The text `key=value`, escaped, of one parameter. -/
def encodePair (p : GoString × GoString) : GoString :=
  QueryEscape p.1 ++ [(61 : Byte)] ++ QueryEscape p.2

/-! ## Types declared outside this file -/

/-- Go's slices: `none` is the nil slice. -/
abbrev GoSlice (α : Type) := Option (List α)

/-- The types and constants of the packages `context`, `net/http`, `io` and
`models` that the service handles without looking inside them. A pointer
`*T` is embedded as `Option T`, with `none` for nil. -/
structure Schemes where
  /-- Go's `context.Context`. -/
  Context : Type
  /-- Go's `http.Request`. -/
  Request : Type
  /-- Go's `io.Reader`. -/
  Reader : Type
  /-- The values of Go's `error` interface. -/
  Error : Type
  /-- The value `model.ErrNoVersionProvided`. -/
  ErrNoVersionProvided : Error
  /-- The value `model.ErrNoFieldIDError`. -/
  ErrNoFieldIDError : Error
  /-- The record `model.IssueFieldScheme`. -/
  IssueFieldScheme : Type
  /-- The zero value of `model.IssueFieldScheme`. -/
  zeroIssueFieldScheme : IssueFieldScheme
  /-- The record `model.CustomFieldScheme`. -/
  CustomFieldScheme : Type
  /-- The record `model.FieldSearchPageScheme`. -/
  FieldSearchPageScheme : Type
  /-- The zero value of `model.FieldSearchPageScheme`. -/
  zeroFieldSearchPageScheme : FieldSearchPageScheme
  /-- The record `model.TaskScheme`. -/
  TaskScheme : Type
  /-- The zero value of `model.TaskScheme`. -/
  zeroTaskScheme : TaskScheme
  /-- The sub-service `IssueFieldConfigService`. -/
  IssueFieldConfigService : Type
  /-- The sub-service `IssueFieldContextService`. -/
  IssueFieldContextService : Type

/-- Modelled from the spec: the response envelope `model.ResponseScheme`,
declared in the package `models`; it wraps the status code, the endpoint
called and the raw body bytes, the three components that callers read. -/
structure ResponseScheme where
  StatusCode : Int
  Endpoint : GoString
  BodyAsBytes : List Byte
deriving DecidableEq

/-- Modelled from the spec: the search filter `model.FieldSearchOptionsScheme`,
declared in the package `models`; an expand list, a type list, an id list, an
order key and a free-text query, the five components that `Search` reads. -/
structure FieldSearchOptionsScheme where
  Expand : List GoString
  Types : List GoString
  IDs : List GoString
  OrderBy : GoString
  Query : GoString
deriving DecidableEq

/-- The four kinds of output container handed to `Call`. -/
inductive Out where
  | fields
  | field
  | page
  | task
deriving DecidableEq

/-- The content of an output container: the slice `[]*IssueFieldScheme`
behind `&fields`, or the record behind the pointer made by `new`. -/
def Out.Container (S : Schemes) : Out → Type
  | Out.fields => GoSlice (Option S.IssueFieldScheme)
  | Out.field => S.IssueFieldScheme
  | Out.page => S.FieldSearchPageScheme
  | Out.task => S.TaskScheme

/-! ## The transport -/

/-- Modelled from the spec: the interface `service.Client`, declared in the
package `service`, over a transport state `σ` (the network, the script of a
mock). `NewRequest` constructs a request from a verb, a path and an optional
body; `Call` performs it, receives the content of the output container and
returns the content it leaves there, with the response envelope and the
error; `TransformStructToReader` serializes a payload into a request body.
Each result component may be nil (`none`) independently of the others. -/
structure Client (S : Schemes) (σ : Type) where
  NewRequest : σ → S.Context → GoString → GoString → Option S.Reader →
    (Option S.Request × Option S.Error) × σ
  Call : (k : Out) → σ → Option S.Request → k.Container S →
    (k.Container S × Option ResponseScheme × Option S.Error) × σ
  TransformStructToReader : σ → Option S.CustomFieldScheme →
    (Option S.Reader × Option S.Error) × σ

/-- One invocation of a transport method, with its arguments and results. -/
inductive Event (S : Schemes) where
  | TransformStructToReader (payload : Option S.CustomFieldScheme)
      (reader : Option S.Reader) (err : Option S.Error)
  | NewRequest (ctx : S.Context) (method endpoint : GoString) (body : Option S.Reader)
      (request : Option S.Request) (err : Option S.Error)
  | Call (request : Option S.Request) (k : Out) (before after : k.Container S)
      (response : Option ResponseScheme) (err : Option S.Error)

/-- Whether the event is an invocation of `NewRequest`. -/
def Event.isNewRequest {S : Schemes} : Event S → Bool
  | Event.NewRequest _ _ _ _ _ _ => true
  | _ => false

/-- Whether the event is an invocation of `Call`. -/
def Event.isCall {S : Schemes} : Event S → Bool
  | Event.Call _ _ _ _ _ _ => true
  | _ => false

/-- The endpoint that the event passes to `NewRequest`, if it is one. -/
def Event.requestedEndpoint {S : Schemes} : Event S → Option GoString
  | Event.NewRequest _ _ endpoint _ _ _ => some endpoint
  | _ => none

/-- The transport state together with the invocations made so far. -/
structure World (S : Schemes) (σ : Type) where
  state : σ
  trace : List (Event S)

/-- The invocation `c.NewRequest(ctx, method, endpoint, body)`. -/
def Client.newRequest {S : Schemes} {σ : Type} (c : Client S σ) (w : World S σ)
    (ctx : S.Context) (method endpoint : GoString) (body : Option S.Reader) :
    (Option S.Request × Option S.Error) × World S σ :=
  let r := c.NewRequest w.state ctx method endpoint body
  (r.1, ⟨r.2, w.trace ++ [Event.NewRequest ctx method endpoint body r.1.1 r.1.2]⟩)

/-- The invocation `c.Call(request, structure)` on a container of kind `k`. -/
def Client.call {S : Schemes} {σ : Type} (c : Client S σ) (k : Out) (w : World S σ)
    (request : Option S.Request) (before : k.Container S) :
    (k.Container S × Option ResponseScheme × Option S.Error) × World S σ :=
  let r := c.Call k w.state request before
  (r.1, ⟨r.2, w.trace ++ [Event.Call request k before r.1.1 r.1.2.1 r.1.2.2]⟩)

/-- The invocation `c.TransformStructToReader(payload)`. -/
def Client.transformStructToReader {S : Schemes} {σ : Type} (c : Client S σ) (w : World S σ)
    (payload : Option S.CustomFieldScheme) :
    (Option S.Reader × Option S.Error) × World S σ :=
  let r := c.TransformStructToReader w.state payload
  (r.1, ⟨r.2, w.trace ++ [Event.TransformStructToReader payload r.1.1 r.1.2]⟩)

/-- The invocations made between the world `w` and the later world `w2`. -/
def performed {S : Schemes} {σ : Type} (w w2 : World S σ) : List (Event S) :=
  w2.trace.drop w.trace.length

/-! ## The service -/

/-- The constant `http.MethodGet`. -/
def http.MethodGet : GoString := str "GET"

/-- The constant `http.MethodPost`. -/
def http.MethodPost : GoString := str "POST"

/-- The constant `http.MethodDelete`. -/
def http.MethodDelete : GoString := str "DELETE"

/-- Modelled from the spec: the interface `jira.Field`, declared in the
package `service/jira`; the four operations that the facade forwards to. -/
structure jira.Field (S : Schemes) (σ : Type) where
  Gets : S.Context → World S σ →
    (GoSlice (Option S.IssueFieldScheme) × Option ResponseScheme × Option S.Error) × World S σ
  Create : S.Context → Option S.CustomFieldScheme → World S σ →
    (Option S.IssueFieldScheme × Option ResponseScheme × Option S.Error) × World S σ
  Search : S.Context → Option FieldSearchOptionsScheme → Int → Int → World S σ →
    (Option S.FieldSearchPageScheme × Option ResponseScheme × Option S.Error) × World S σ
  Delete : S.Context → GoString → World S σ →
    (Option S.TaskScheme × Option ResponseScheme × Option S.Error) × World S σ

/-- The struct `internalIssueFieldServiceImpl`. -/
structure internalIssueFieldServiceImpl (S : Schemes) (σ : Type) where
  c : Client S σ
  version : GoString

/-- The method `internalIssueFieldServiceImpl.Gets`. -/
def internalIssueFieldServiceImpl.Gets {S : Schemes} {σ : Type}
    (i : internalIssueFieldServiceImpl S σ) (ctx : S.Context) (w : World S σ) :
    (GoSlice (Option S.IssueFieldScheme) × Option ResponseScheme × Option S.Error) × World S σ :=
  let endpoint := str "rest/api/" ++ i.version ++ str "/field"
  match i.c.newRequest w ctx http.MethodGet endpoint none with
  | ((_, some err), w1) => ((none, none, some err), w1)
  | ((request, none), w1) =>
    match i.c.call Out.fields w1 request none with
    | ((_, response, some err), w2) => ((none, response, some err), w2)
    | ((fields, response, none), w2) => ((fields, response, none), w2)

/-- The method `internalIssueFieldServiceImpl.Create`. -/
def internalIssueFieldServiceImpl.Create {S : Schemes} {σ : Type}
    (i : internalIssueFieldServiceImpl S σ) (ctx : S.Context)
    (payload : Option S.CustomFieldScheme) (w : World S σ) :
    (Option S.IssueFieldScheme × Option ResponseScheme × Option S.Error) × World S σ :=
  match i.c.transformStructToReader w payload with
  | ((_, some err), w0) => ((none, none, some err), w0)
  | ((reader, none), w0) =>
    let endpoint := str "rest/api/" ++ i.version ++ str "/field"
    match i.c.newRequest w0 ctx http.MethodPost endpoint reader with
    | ((_, some err), w1) => ((none, none, some err), w1)
    | ((request, none), w1) =>
      match i.c.call Out.field w1 request S.zeroIssueFieldScheme with
      | ((_, response, some err), w2) => ((none, response, some err), w2)
      | ((field, response, none), w2) => ((some field, response, none), w2)

/-- The query parameters that `Search` collects (lines 98 to 123). -/
def searchParams (options : Option FieldSearchOptionsScheme) (startAt maxResults : Int) :
    Values :=
  let params : Values := []
  let params := Values.Add params (str "startAt") (Itoa startAt)
  let params := Values.Add params (str "maxResults") (Itoa maxResults)
  match options with
  | none => params
  | some options =>
    let params :=
      if options.Expand.length ≠ 0 then
        Values.Add params (str "expand") (Join options.Expand (str ","))
      else params
    let params :=
      if options.Types.length ≠ 0 then
        Values.Add params (str "type") (Join options.Types (str ","))
      else params
    let params :=
      if options.IDs.length ≠ 0 then
        Values.Add params (str "id") (Join options.IDs (str ","))
      else params
    let params :=
      if options.OrderBy.length ≠ 0 then Values.Add params (str "orderBy") options.OrderBy
      else params
    let params :=
      if options.Query.length ≠ 0 then Values.Add params (str "query") options.Query
      else params
    params

/-- The query string that `Search` puts after the `?` of its endpoint. -/
def searchQuery (options : Option FieldSearchOptionsScheme) (startAt maxResults : Int) :
    GoString :=
  Values.Encode (searchParams options startAt maxResults)

/-- The method `internalIssueFieldServiceImpl.Search`. -/
def internalIssueFieldServiceImpl.Search {S : Schemes} {σ : Type}
    (i : internalIssueFieldServiceImpl S σ) (ctx : S.Context)
    (options : Option FieldSearchOptionsScheme) (startAt maxResults : Int) (w : World S σ) :
    (Option S.FieldSearchPageScheme × Option ResponseScheme × Option S.Error) × World S σ :=
  let endpoint := str "rest/api/" ++ i.version ++ str "/field/search?"
    ++ searchQuery options startAt maxResults
  match i.c.newRequest w ctx http.MethodGet endpoint none with
  | ((_, some err), w1) => ((none, none, some err), w1)
  | ((request, none), w1) =>
    match i.c.call Out.page w1 request S.zeroFieldSearchPageScheme with
    | ((_, response, some err), w2) => ((none, response, some err), w2)
    | ((page, response, none), w2) => ((some page, response, none), w2)

/-- The method `internalIssueFieldServiceImpl.Delete`. -/
def internalIssueFieldServiceImpl.Delete {S : Schemes} {σ : Type}
    (i : internalIssueFieldServiceImpl S σ) (ctx : S.Context) (fieldId : GoString)
    (w : World S σ) :
    (Option S.TaskScheme × Option ResponseScheme × Option S.Error) × World S σ :=
  if fieldId = [] then ((none, none, some S.ErrNoFieldIDError), w)
  else
    let endpoint := str "rest/api/" ++ i.version ++ str "/field/" ++ fieldId
    match i.c.newRequest w ctx http.MethodDelete endpoint none with
    | ((_, some err), w1) => ((none, none, some err), w1)
    | ((request, none), w1) =>
      match i.c.call Out.task w1 request S.zeroTaskScheme with
      | ((_, response, some err), w2) => ((none, response, some err), w2)
      | ((task, response, none), w2) => ((some task, response, none), w2)

/-- The implementation seen through the interface `jira.Field`. -/
def internalIssueFieldServiceImpl.asField {S : Schemes} {σ : Type}
    (i : internalIssueFieldServiceImpl S σ) : jira.Field S σ where
  Gets := i.Gets
  Create := i.Create
  Search := i.Search
  Delete := i.Delete

/-- The struct `IssueFieldService`. -/
structure IssueFieldService (S : Schemes) (σ : Type) where
  internalClient : jira.Field S σ
  Configuration : Option S.IssueFieldConfigService
  Context : Option S.IssueFieldContextService

/-- The constructor `NewIssueFieldService`; it makes no invocation, so the
world comes back as it was given. -/
def NewIssueFieldService {S : Schemes} {σ : Type} (client : Client S σ) (version : GoString)
    (configuration : Option S.IssueFieldConfigService)
    (context : Option S.IssueFieldContextService) (w : World S σ) :
    (Option (IssueFieldService S σ) × Option S.Error) × World S σ :=
  if version = [] then ((none, some S.ErrNoVersionProvided), w)
  else
    ((some
        { internalClient := internalIssueFieldServiceImpl.asField ⟨client, version⟩
          Configuration := configuration
          Context := context },
      none), w)

/-- The method `IssueFieldService.Gets`. -/
def IssueFieldService.Gets {S : Schemes} {σ : Type} (i : IssueFieldService S σ)
    (ctx : S.Context) (w : World S σ) :
    (GoSlice (Option S.IssueFieldScheme) × Option ResponseScheme × Option S.Error) × World S σ :=
  i.internalClient.Gets ctx w

/-- The method `IssueFieldService.Create`. -/
def IssueFieldService.Create {S : Schemes} {σ : Type} (i : IssueFieldService S σ)
    (ctx : S.Context) (payload : Option S.CustomFieldScheme) (w : World S σ) :
    (Option S.IssueFieldScheme × Option ResponseScheme × Option S.Error) × World S σ :=
  i.internalClient.Create ctx payload w

/-- The method `IssueFieldService.Search`. -/
def IssueFieldService.Search {S : Schemes} {σ : Type} (i : IssueFieldService S σ)
    (ctx : S.Context) (options : Option FieldSearchOptionsScheme) (startAt maxResults : Int)
    (w : World S σ) :
    (Option S.FieldSearchPageScheme × Option ResponseScheme × Option S.Error) × World S σ :=
  i.internalClient.Search ctx options startAt maxResults w

/-- The method `IssueFieldService.Delete`. -/
def IssueFieldService.Delete {S : Schemes} {σ : Type} (i : IssueFieldService S σ)
    (ctx : S.Context) (fieldId : GoString) (w : World S σ) :
    (Option S.TaskScheme × Option ResponseScheme × Option S.Error) × World S σ :=
  i.internalClient.Delete ctx fieldId w

/-! ## A scripted transport, for concrete runs -/

/-- Concrete stand-ins for the outside types: numbers for the records and the
errors, and the triple (method, endpoint, body) for a request. -/
@[reducible]
def mockSchemes : Schemes where
  Context := Nat
  Request := GoString × GoString × Option Nat
  Reader := Nat
  Error := Nat
  ErrNoVersionProvided := 1
  ErrNoFieldIDError := 2
  IssueFieldScheme := Nat
  zeroIssueFieldScheme := 0
  CustomFieldScheme := Nat
  FieldSearchPageScheme := Nat
  zeroFieldSearchPageScheme := 0
  TaskScheme := Nat
  zeroTaskScheme := 0
  IssueFieldConfigService := Nat
  IssueFieldContextService := Nat

/-- What the scripted transport answers. -/
structure MockScript where
  transformErr : Option Nat
  requestErr : Option Nat
  response : Option ResponseScheme
  callErr : Option Nat

/-- What the scripted transport writes into an output container. -/
def mockWritten : (k : Out) → k.Container mockSchemes
  | Out.fields => some [some 7, none, some 3]
  | Out.field => (7 : Nat)
  | Out.page => (8 : Nat)
  | Out.task => (9 : Nat)

/-- A transport that answers by its script and counts its invocations. -/
def mockClient (m : MockScript) : Client mockSchemes Nat where
  NewRequest := fun s _ method endpoint body =>
    ((some (method, endpoint, body), m.requestErr), s + 1)
  Call := fun k s _ _ => ((mockWritten k, m.response, m.callErr), s + 1)
  TransformStructToReader := fun s payload => ((payload, m.transformErr), s + 1)

/-- The script in which every step succeeds, with a 200 response. -/
def okScript : MockScript :=
  ⟨none, none, some ⟨200, str "rest/api/3/field", str "[]"⟩, none⟩

/-- The script whose `Call` fails with error 5 and a 400 response. -/
def callFailScript : MockScript :=
  ⟨none, none, some ⟨400, str "rest/api/3/field", str "bad"⟩, some 5⟩

/-- The script whose `NewRequest` fails with error 4. -/
def requestFailScript : MockScript :=
  ⟨none, some 4, none, none⟩

/-- The script whose `TransformStructToReader` fails with error 3. -/
def transformFailScript : MockScript :=
  ⟨some 3, none, none, none⟩

/-- The initial world of the scripted transport. -/
def mockWorld : World mockSchemes Nat := ⟨0, []⟩

/-- The implementation over the scripted transport, for API version 3. -/
def mockImpl (m : MockScript) : internalIssueFieldServiceImpl mockSchemes Nat :=
  ⟨mockClient m, str "3"⟩

/-! ## Predicates on runs -/

/-- The invocations `evs` contain exactly one `NewRequest`, made with the
given context, verb, endpoint and body, and at most one `Call`. -/
def oneRequest {S : Schemes} (evs : List (Event S)) (ctx : S.Context)
    (method endpoint : GoString) (body : Option S.Reader) : Prop :=
  evs.countP Event.isNewRequest = 1 ∧ evs.countP Event.isCall ≤ 1 ∧
    ∀ ev ∈ evs, ev.isNewRequest = true →
      ∃ rq er, ev = Event.NewRequest ctx method endpoint body rq er

/-- The invocations `evs` contain neither a `NewRequest` nor a `Call`. -/
def noNetwork {S : Schemes} (evs : List (Event S)) : Prop :=
  evs.countP Event.isNewRequest = 0 ∧ evs.countP Event.isCall = 0

/-! ## Escaping and decoding -/

/-- The three shapes of what `escape` writes for a byte. -/
theorem escapeByte_shape : ∀ b : Byte,
    (escapeByte b = [b] ∧ b ≠ 37 ∧ b ≠ 43 ∧ b ≠ 38 ∧ b ≠ 59 ∧ b ≠ 61) ∨
    (b = 32 ∧ escapeByte b = [43]) ∨
    (escapeByte b = [37, upperhex (b.val / 16), upperhex (b.val % 16)] ∧
      ishex (upperhex (b.val / 16)) = true ∧ ishex (upperhex (b.val % 16)) = true ∧
      (Fin.ofNat (unhex (upperhex (b.val / 16)) * 16 + unhex (upperhex (b.val % 16))) : Byte)
        = b) := by
  decide

/-- A hexadecimal digit is none of `&`, `;`, `=`. -/
theorem ishex_clean : ∀ c : Byte, ishex c = true → c ≠ 38 ∧ c ≠ 59 ∧ c ≠ 61 := by
  decide

/-- An escaped byte contains none of `&`, `;`, `=`. -/
theorem escapeByte_clean (b x : Byte) (hx : x ∈ escapeByte b) :
    x ≠ 38 ∧ x ≠ 59 ∧ x ≠ 61 := by
  rcases escapeByte_shape b with ⟨h, _, _, h1, h2, h3⟩ | ⟨_, h⟩ | ⟨h, hh, hl, _⟩
  · rw [h] at hx
    simp at hx
    subst hx
    exact ⟨h1, h2, h3⟩
  · rw [h] at hx
    simp at hx
    subst hx
    decide
  · rw [h] at hx
    simp at hx
    rcases hx with rfl | rfl | rfl
    · decide
    · exact ishex_clean _ hh
    · exact ishex_clean _ hl

/-- An escaped string contains none of `&`, `;`, `=`. -/
theorem QueryEscape_clean (s : GoString) (x : Byte) (hx : x ∈ QueryEscape s) :
    x ≠ 38 ∧ x ≠ 59 ∧ x ≠ 61 := by
  unfold QueryEscape at hx
  rw [List.mem_flatMap] at hx
  obtain ⟨b, _, hb⟩ := hx
  exact escapeByte_clean b x hb

theorem QueryEscape_cons (b : Byte) (s : GoString) :
    QueryEscape (b :: s) = escapeByte b ++ QueryEscape s := by
  simp [QueryEscape]

theorem QueryEscape_append (s t : GoString) :
    QueryEscape (s ++ t) = QueryEscape s ++ QueryEscape t := by
  simp [QueryEscape]

/-- Unescaping undoes the escaping of one byte. -/
theorem QueryUnescape_escapeByte (b : Byte) (rest : GoString) :
    QueryUnescape (escapeByte b ++ rest) = (QueryUnescape rest).map fun t => b :: t := by
  rcases escapeByte_shape b with ⟨h, h37, h43, _⟩ | ⟨h32, h⟩ | ⟨h, hh, hl, hv⟩
  · rw [h, List.singleton_append, QueryUnescape.eq_def]
    simp only [if_neg h37, if_neg h43]
  · rw [h, List.singleton_append, QueryUnescape.eq_def]
    subst h32
    have e1 : ¬ ((43 : Byte) = 37) := by decide
    simp only [if_neg e1, if_true]
  · rw [h, QueryUnescape.eq_def]
    simp [hh, hl, hv]

/-- Unescaping undoes escaping. -/
theorem QueryUnescape_QueryEscape (s : GoString) : QueryUnescape (QueryEscape s) = some s := by
  induction s with
  | nil => simp [QueryEscape, QueryUnescape]
  | cons b s ih => rw [QueryEscape_cons, QueryUnescape_escapeByte, ih]; rfl

theorem Cut_append (sep : Byte) (l v : GoString) (h : sep ∉ l) :
    Cut sep (l ++ sep :: v) = (l, v) := by
  induction l with
  | nil => simp [Cut]
  | cons c l ih =>
    have hc : c ≠ sep := fun e => h (by simp [e])
    have hl : sep ∉ l := fun e => h (by simp [e])
    simp [Cut, hc, ih hl]

theorem Split_of_not_mem (sep : Byte) (l : GoString) (h : sep ∉ l) : Split sep l = [l] := by
  induction l with
  | nil => simp [Split]
  | cons c l ih =>
    have hc : c ≠ sep := fun e => h (by simp [e])
    have hl : sep ∉ l := fun e => h (by simp [e])
    simp [Split, hc, ih hl]

theorem Split_append (sep : Byte) (l rest : GoString) (h : sep ∉ l) :
    Split sep (l ++ sep :: rest) = l :: Split sep rest := by
  induction l with
  | nil => simp [Split]
  | cons c l ih =>
    have hc : c ≠ sep := fun e => h (by simp [e])
    have hl : sep ∉ l := fun e => h (by simp [e])
    simp [Split, hc, ih hl]

/-- Splitting at the separator undoes joining, for segments without it. -/
theorem Split_Join (sep : Byte) (segs : List GoString) (hne : segs ≠ [])
    (h : ∀ seg ∈ segs, sep ∉ seg) : Split sep (Join segs [sep]) = segs := by
  induction segs with
  | nil => exact absurd rfl hne
  | cons a rest ih =>
    cases rest with
    | nil => simpa [Join] using Split_of_not_mem sep a (h a (by simp))
    | cons b rest =>
      have ha : sep ∉ a := h a (by simp)
      have ih2 := ih (by simp) (fun seg hs => h seg (List.mem_cons_of_mem _ hs))
      simp only [Join, List.append_assoc, List.singleton_append]
      rw [Split_append sep a _ ha, ih2]

theorem Join_snoc (sep : GoString) (done : List GoString) (s : GoString) (hne : done ≠ []) :
    Join (done ++ [s]) sep = Join done sep ++ sep ++ s := by
  induction done with
  | nil => exact absurd rfl hne
  | cons a rest ih =>
    cases rest with
    | nil => simp [Join]
    | cons b rest =>
      have ih2 := ih (by simp)
      have e : Join (a :: b :: rest ++ [s]) sep = a ++ sep ++ Join (b :: rest ++ [s]) sep := rfl
      rw [e, ih2]
      simp [Join]

theorem Join_ne_nil (sep : GoString) (done : List GoString) (hne : done ≠ [])
    (h : ∀ s ∈ done, s ≠ []) : Join done sep ≠ [] := by
  cases done with
  | nil => exact absurd rfl hne
  | cons a rest =>
    have ha : a ≠ [] := h a (by simp)
    cases rest with
    | nil => simpa [Join] using ha
    | cons b rest => simp [Join, ha]

theorem encodePair_ne_nil (p : GoString × GoString) : encodePair p ≠ [] := by
  simp [encodePair]

/-- One step of the loop of `Values.Encode`, on a buffer that holds the
parameters written so far. -/
theorem writePair_Join (done : List GoString) (h : ∀ s ∈ done, s ≠ [])
    (p : GoString × GoString) :
    writePair (QueryEscape p.1) (Join done [38]) p.2
      = Join (done ++ [encodePair p]) [38] := by
  by_cases hd : done = []
  · subst hd
    simp [writePair, Join, encodePair]
  · have hj := Join_ne_nil [38] done hd h
    have hl : (Join done [38]).length > 0 := List.length_pos.mpr hj
    rw [Join_snoc _ _ _ hd]
    simp [writePair, hl, encodePair]

theorem foldl_writePair (ps : List (GoString × GoString)) (done : List GoString)
    (h : ∀ s ∈ done, s ≠ []) :
    ps.foldl (fun buf p => writePair (QueryEscape p.1) buf p.2) (Join done [38])
      = Join (done ++ ps.map encodePair) [38] := by
  induction ps generalizing done with
  | nil => simp
  | cons p ps ih =>
    simp only [List.foldl_cons, List.map_cons]
    rw [writePair_Join done h p, ih (done ++ [encodePair p])]
    · simp
    · intro s hs
      rw [List.mem_append] at hs
      rcases hs with hs | hs
      · exact h s hs
      · simp at hs
        rw [hs]
        exact encodePair_ne_nil p

theorem foldl_keys (v : Values) (keys : List GoString) (buf : GoString) :
    keys.foldl (fun buf k => (Values.get v k).foldl (writePair (QueryEscape k)) buf) buf
      = (keys.flatMap fun k => (Values.get v k).map fun x => (k, x)).foldl
          (fun buf p => writePair (QueryEscape p.1) buf p.2) buf := by
  induction keys generalizing buf with
  | nil => simp
  | cons k keys ih =>
    simp only [List.foldl_cons, List.flatMap_cons, List.foldl_append, List.foldl_map]
    rw [ih]

/-- The text written by `Values.Encode`: the escaped parameters, in the order
of their keys, joined by `&`. -/
theorem Encode_eq_Join (v : Values) :
    Values.Encode v = Join ((sortedPairs v).map encodePair) [38] := by
  unfold Values.Encode sortedPairs
  rw [foldl_keys]
  have h := foldl_writePair
    ((sortedKeys v).flatMap fun k => (Values.get v k).map fun x => (k, x)) [] (by simp)
  simpa [Join] using h

theorem parseSegment_encodePair (p : GoString × GoString) :
    parseSegment (encodePair p) = some p := by
  have h59 : (59 : Byte) ∉ encodePair p := by
    intro hm
    simp only [encodePair, List.mem_append, List.mem_singleton] at hm
    rcases hm with (hm | hm) | hm
    · exact (QueryEscape_clean _ _ hm).2.1 rfl
    · exact absurd hm (by decide)
    · exact (QueryEscape_clean _ _ hm).2.1 rfl
  have h61 : (61 : Byte) ∉ QueryEscape p.1 := fun hm => (QueryEscape_clean _ _ hm).2.2 rfl
  have hcut : Cut 61 (encodePair p) = (QueryEscape p.1, QueryEscape p.2) := by
    have := Cut_append 61 (QueryEscape p.1) (QueryEscape p.2) h61
    simpa [encodePair] using this
  unfold parseSegment
  rw [if_neg h59, if_neg (encodePair_ne_nil p), hcut]
  simp [QueryUnescape_QueryEscape]

/-- Decoding undoes the encoding of a list of parameters. -/
theorem ParseQuery_Join (ps : List (GoString × GoString)) :
    ParseQuery (Join (ps.map encodePair) [38]) = ps := by
  by_cases hp : ps = []
  · subst hp
    simp [ParseQuery, Join, Split, parseSegment]
  · unfold ParseQuery
    rw [Split_Join 38 _ (by simpa using hp)]
    · rw [List.filterMap_map]
      have hf : (parseSegment ∘ encodePair) = some := by
        funext p
        exact parseSegment_encodePair p
      rw [hf]
      simp
    · intro seg hs
      rw [List.mem_map] at hs
      obtain ⟨p, _, rfl⟩ := hs
      intro hm
      simp only [encodePair, List.mem_append, List.mem_singleton] at hm
      rcases hm with (hm | hm) | hm
      · exact (QueryEscape_clean _ _ hm).1 rfl
      · exact absurd hm (by decide)
      · exact (QueryEscape_clean _ _ hm).1 rfl

/-- Decoding the text of `Values.Encode` gives back the parameters, in the
order of their keys. -/
theorem ParseQuery_Encode (v : Values) : ParseQuery (Values.Encode v) = sortedPairs v := by
  rw [Encode_eq_Join, ParseQuery_Join]

/-! ## The runs of the four operations -/

theorem performed_self {S : Schemes} {σ : Type} (w : World S σ) : performed w w = [] := by
  simp [performed]

/-- The three possible runs of `Gets`. -/
theorem Gets_cases {S : Schemes} {σ : Type} (i : internalIssueFieldServiceImpl S σ)
    (ctx : S.Context) (w : World S σ) :
    (∃ rq e, performed w (i.Gets ctx w).2 =
        [Event.NewRequest ctx http.MethodGet (str "rest/api/" ++ i.version ++ str "/field")
          none rq (some e)] ∧
      (i.Gets ctx w).1 = (none, none, some e)) ∨
    (∃ rq out r e, performed w (i.Gets ctx w).2 =
        [Event.NewRequest ctx http.MethodGet (str "rest/api/" ++ i.version ++ str "/field")
          none rq none, Event.Call rq Out.fields none out r (some e)] ∧
      (i.Gets ctx w).1 = (none, r, some e)) ∨
    (∃ rq out r, performed w (i.Gets ctx w).2 =
        [Event.NewRequest ctx http.MethodGet (str "rest/api/" ++ i.version ++ str "/field")
          none rq none, Event.Call rq Out.fields none out r none] ∧
      (i.Gets ctx w).1 = (out, r, none)) := by
  unfold internalIssueFieldServiceImpl.Gets
  simp only [Client.newRequest, Client.call]
  rcases h1 : i.c.NewRequest w.state ctx http.MethodGet
    (str "rest/api/" ++ i.version ++ str "/field") none with ⟨⟨rq, _ | e⟩, s1⟩
  · simp only
    rcases h2 : i.c.Call Out.fields s1 rq none with ⟨⟨out, r, _ | e2⟩, s2⟩
    · right; right
      exact ⟨rq, out, r, by simp [performed], rfl⟩
    · right; left
      exact ⟨rq, out, r, e2, by simp [performed], rfl⟩
  · left
    exact ⟨rq, e, by simp [performed], rfl⟩

/-- The four possible runs of `Create`. -/
theorem Create_cases {S : Schemes} {σ : Type} (i : internalIssueFieldServiceImpl S σ)
    (ctx : S.Context) (payload : Option S.CustomFieldScheme) (w : World S σ) :
    (∃ rd e, performed w (i.Create ctx payload w).2 =
        [Event.TransformStructToReader payload rd (some e)] ∧
      (i.Create ctx payload w).1 = (none, none, some e)) ∨
    (∃ rd rq e, performed w (i.Create ctx payload w).2 =
        [Event.TransformStructToReader payload rd none,
          Event.NewRequest ctx http.MethodPost (str "rest/api/" ++ i.version ++ str "/field")
            rd rq (some e)] ∧
      (i.Create ctx payload w).1 = (none, none, some e)) ∨
    (∃ rd rq out r e, performed w (i.Create ctx payload w).2 =
        [Event.TransformStructToReader payload rd none,
          Event.NewRequest ctx http.MethodPost (str "rest/api/" ++ i.version ++ str "/field")
            rd rq none,
          Event.Call rq Out.field S.zeroIssueFieldScheme out r (some e)] ∧
      (i.Create ctx payload w).1 = (none, r, some e)) ∨
    (∃ rd rq out r, performed w (i.Create ctx payload w).2 =
        [Event.TransformStructToReader payload rd none,
          Event.NewRequest ctx http.MethodPost (str "rest/api/" ++ i.version ++ str "/field")
            rd rq none,
          Event.Call rq Out.field S.zeroIssueFieldScheme out r none] ∧
      (i.Create ctx payload w).1 = (some out, r, none)) := by
  unfold internalIssueFieldServiceImpl.Create
  simp only [Client.newRequest, Client.call, Client.transformStructToReader]
  rcases h0 : i.c.TransformStructToReader w.state payload with ⟨⟨rd, _ | e0⟩, s0⟩
  · simp only
    rcases h1 : i.c.NewRequest s0 ctx http.MethodPost
      (str "rest/api/" ++ i.version ++ str "/field") rd with ⟨⟨rq, _ | e⟩, s1⟩
    · simp only
      rcases h2 : i.c.Call Out.field s1 rq S.zeroIssueFieldScheme with ⟨⟨out, r, _ | e2⟩, s2⟩
      · right; right; right
        exact ⟨rd, rq, out, r, by simp [performed], rfl⟩
      · right; right; left
        exact ⟨rd, rq, out, r, e2, by simp [performed], rfl⟩
    · right; left
      exact ⟨rd, rq, e, by simp [performed], rfl⟩
  · left
    exact ⟨rd, e0, by simp [performed], rfl⟩

/-- The three possible runs of `Search`. -/
theorem Search_cases {S : Schemes} {σ : Type} (i : internalIssueFieldServiceImpl S σ)
    (ctx : S.Context) (options : Option FieldSearchOptionsScheme) (startAt maxResults : Int)
    (w : World S σ) :
    (∃ rq e, performed w (i.Search ctx options startAt maxResults w).2 =
        [Event.NewRequest ctx http.MethodGet
          (str "rest/api/" ++ i.version ++ str "/field/search?"
            ++ searchQuery options startAt maxResults) none rq (some e)] ∧
      (i.Search ctx options startAt maxResults w).1 = (none, none, some e)) ∨
    (∃ rq out r e, performed w (i.Search ctx options startAt maxResults w).2 =
        [Event.NewRequest ctx http.MethodGet
          (str "rest/api/" ++ i.version ++ str "/field/search?"
            ++ searchQuery options startAt maxResults) none rq none,
          Event.Call rq Out.page S.zeroFieldSearchPageScheme out r (some e)] ∧
      (i.Search ctx options startAt maxResults w).1 = (none, r, some e)) ∨
    (∃ rq out r, performed w (i.Search ctx options startAt maxResults w).2 =
        [Event.NewRequest ctx http.MethodGet
          (str "rest/api/" ++ i.version ++ str "/field/search?"
            ++ searchQuery options startAt maxResults) none rq none,
          Event.Call rq Out.page S.zeroFieldSearchPageScheme out r none] ∧
      (i.Search ctx options startAt maxResults w).1 = (some out, r, none)) := by
  unfold internalIssueFieldServiceImpl.Search
  simp only [Client.newRequest, Client.call]
  rcases h1 : i.c.NewRequest w.state ctx http.MethodGet
    (str "rest/api/" ++ i.version ++ str "/field/search?"
      ++ searchQuery options startAt maxResults) none with ⟨⟨rq, _ | e⟩, s1⟩
  · simp only
    rcases h2 : i.c.Call Out.page s1 rq S.zeroFieldSearchPageScheme with ⟨⟨out, r, _ | e2⟩, s2⟩
    · right; right
      exact ⟨rq, out, r, by simp [performed], rfl⟩
    · right; left
      exact ⟨rq, out, r, e2, by simp [performed], rfl⟩
  · left
    exact ⟨rq, e, by simp [performed], rfl⟩

/-- The run of `Delete` on the empty identifier. -/
theorem Delete_empty {S : Schemes} {σ : Type} (i : internalIssueFieldServiceImpl S σ)
    (ctx : S.Context) (w : World S σ) :
    i.Delete ctx [] w = ((none, none, some S.ErrNoFieldIDError), w) := by
  simp [internalIssueFieldServiceImpl.Delete]

/-- The three possible runs of `Delete` on a non-empty identifier. -/
theorem Delete_cases {S : Schemes} {σ : Type} (i : internalIssueFieldServiceImpl S σ)
    (ctx : S.Context) (fieldId : GoString) (hf : fieldId ≠ []) (w : World S σ) :
    (∃ rq e, performed w (i.Delete ctx fieldId w).2 =
        [Event.NewRequest ctx http.MethodDelete
          (str "rest/api/" ++ i.version ++ str "/field/" ++ fieldId) none rq (some e)] ∧
      (i.Delete ctx fieldId w).1 = (none, none, some e)) ∨
    (∃ rq out r e, performed w (i.Delete ctx fieldId w).2 =
        [Event.NewRequest ctx http.MethodDelete
          (str "rest/api/" ++ i.version ++ str "/field/" ++ fieldId) none rq none,
          Event.Call rq Out.task S.zeroTaskScheme out r (some e)] ∧
      (i.Delete ctx fieldId w).1 = (none, r, some e)) ∨
    (∃ rq out r, performed w (i.Delete ctx fieldId w).2 =
        [Event.NewRequest ctx http.MethodDelete
          (str "rest/api/" ++ i.version ++ str "/field/" ++ fieldId) none rq none,
          Event.Call rq Out.task S.zeroTaskScheme out r none] ∧
      (i.Delete ctx fieldId w).1 = (some out, r, none)) := by
  unfold internalIssueFieldServiceImpl.Delete
  simp only [Client.newRequest, Client.call, if_neg hf]
  rcases h1 : i.c.NewRequest w.state ctx http.MethodDelete
    (str "rest/api/" ++ i.version ++ str "/field/" ++ fieldId) none with ⟨⟨rq, _ | e⟩, s1⟩
  · simp only
    rcases h2 : i.c.Call Out.task s1 rq S.zeroTaskScheme with ⟨⟨out, r, _ | e2⟩, s2⟩
    · right; right
      exact ⟨rq, out, r, by simp [performed], rfl⟩
    · right; left
      exact ⟨rq, out, r, e2, by simp [performed], rfl⟩
  · left
    exact ⟨rq, e, by simp [performed], rfl⟩

/-- Whatever the identifier, `Delete` has one of four runs. -/
theorem Delete_runs {S : Schemes} {σ : Type} (i : internalIssueFieldServiceImpl S σ)
    (ctx : S.Context) (fieldId : GoString) (w : World S σ) :
    (performed w (i.Delete ctx fieldId w).2 = [] ∧
      (i.Delete ctx fieldId w).1 = (none, none, some S.ErrNoFieldIDError)) ∨
    (∃ rq e, performed w (i.Delete ctx fieldId w).2 =
        [Event.NewRequest ctx http.MethodDelete
          (str "rest/api/" ++ i.version ++ str "/field/" ++ fieldId) none rq (some e)] ∧
      (i.Delete ctx fieldId w).1 = (none, none, some e)) ∨
    (∃ rq out r e, performed w (i.Delete ctx fieldId w).2 =
        [Event.NewRequest ctx http.MethodDelete
          (str "rest/api/" ++ i.version ++ str "/field/" ++ fieldId) none rq none,
          Event.Call rq Out.task S.zeroTaskScheme out r (some e)] ∧
      (i.Delete ctx fieldId w).1 = (none, r, some e)) ∨
    (∃ rq out r, performed w (i.Delete ctx fieldId w).2 =
        [Event.NewRequest ctx http.MethodDelete
          (str "rest/api/" ++ i.version ++ str "/field/" ++ fieldId) none rq none,
          Event.Call rq Out.task S.zeroTaskScheme out r none] ∧
      (i.Delete ctx fieldId w).1 = (some out, r, none)) := by
  by_cases hf : fieldId = []
  · subst hf
    left
    rw [Delete_empty]
    exact ⟨performed_self w, rfl⟩
  · right
    exact Delete_cases i ctx fieldId hf w

/-! ## The query string of `Search` -/

theorem str_startAt : str "startAt" = [115, 116, 97, 114, 116, 65, 116] := by decide

theorem str_maxResults : str "maxResults" = [109, 97, 120, 82, 101, 115, 117, 108, 116, 115] := by
  decide

theorem str_expand : str "expand" = [101, 120, 112, 97, 110, 100] := by decide

theorem str_type : str "type" = [116, 121, 112, 101] := by decide

theorem str_id : str "id" = [105, 100] := by decide

theorem str_orderBy : str "orderBy" = [111, 114, 100, 101, 114, 66, 121] := by decide

theorem str_query : str "query" = [113, 117, 101, 114, 121] := by decide

/-- The parameters that `Search` sends for a non-nil filter, in the order of
their keys. -/
theorem sortedPairs_searchParams (o : FieldSearchOptionsScheme) (startAt maxResults : Int) :
    sortedPairs (searchParams (some o) startAt maxResults) =
      (if o.Expand = [] then [] else [(str "expand", Join o.Expand (str ","))]) ++
      (if o.IDs = [] then [] else [(str "id", Join o.IDs (str ","))]) ++
      [(str "maxResults", Itoa maxResults)] ++
      (if o.OrderBy = [] then [] else [(str "orderBy", o.OrderBy)]) ++
      (if o.Query = [] then [] else [(str "query", o.Query)]) ++
      [(str "startAt", Itoa startAt)] ++
      (if o.Types = [] then [] else [(str "type", Join o.Types (str ","))]) := by
  obtain ⟨ex, ty, ids, ob, q⟩ := o
  cases ex <;> cases ty <;> cases ids <;> cases ob <;> cases q <;>
    simp [searchParams, str_startAt, str_maxResults, str_expand, str_type, str_id, str_orderBy,
      str_query, Values.Add, sortedPairs, sortedKeys, insertKey, stringLe, Values.get]

/-- The parameters that `Search` sends for a nil filter. -/
theorem sortedPairs_searchParams_none (startAt maxResults : Int) :
    sortedPairs (searchParams none startAt maxResults) =
      [(str "maxResults", Itoa maxResults), (str "startAt", Itoa startAt)] := by
  simp [searchParams, str_startAt, str_maxResults, Values.Add, sortedPairs, sortedKeys,
    insertKey, stringLe, Values.get]

/-- The first invocation of `Search` is the `NewRequest` for the search
endpoint followed by the query string. -/
theorem Search_first_event {S : Schemes} {σ : Type} (i : internalIssueFieldServiceImpl S σ)
    (ctx : S.Context) (options : Option FieldSearchOptionsScheme) (startAt maxResults : Int)
    (w : World S σ) :
    ∃ rq er rest, performed w (i.Search ctx options startAt maxResults w).2 =
      Event.NewRequest ctx (str "GET")
        (str "rest/api/" ++ i.version ++ str "/field/search?"
          ++ searchQuery options startAt maxResults) none rq er :: rest := by
  rcases Search_cases i ctx options startAt maxResults w with
    ⟨rq, e, hp, _⟩ | ⟨rq, _, _, _, hp, _⟩ | ⟨rq, _, _, hp, _⟩
  · exact ⟨rq, some e, [], hp⟩
  · exact ⟨rq, none, _, hp⟩
  · exact ⟨rq, none, _, hp⟩

/-- Digits and the minus sign are written unescaped. -/
theorem escapeByte_digit : ∀ b : Byte, (48 ≤ b.val ∧ b.val ≤ 57) ∨ b = 45 → escapeByte b = [b] := by
  decide

theorem QueryEscape_of_plain (s : GoString) (h : ∀ b ∈ s, escapeByte b = [b]) :
    QueryEscape s = s := by
  induction s with
  | nil => rfl
  | cons b s ih =>
    rw [QueryEscape_cons, h b (by simp), ih (fun c hc => h c (List.mem_cons_of_mem _ hc))]
    rfl

theorem decimalDigits_digits (fuel n : Nat) (acc : GoString)
    (h : ∀ b ∈ acc, 48 ≤ b.val ∧ b.val ≤ 57) :
    ∀ b ∈ decimalDigits fuel n acc, 48 ≤ b.val ∧ b.val ≤ 57 := by
  induction fuel generalizing n acc with
  | zero => simpa [decimalDigits] using h
  | succ fuel ih =>
    have hd : ∀ b ∈ ((Fin.ofNat (48 + n % 10) : Byte) :: acc), 48 ≤ b.val ∧ b.val ≤ 57 := by
      intro b hb
      rw [List.mem_cons] at hb
      rcases hb with rfl | hb
      · have : n % 10 < 10 := Nat.mod_lt _ (by decide)
        simp only [Fin.ofNat]
        omega
      · exact h b hb
    unfold decimalDigits
    by_cases h0 : n / 10 = 0
    · simpa [h0] using hd
    · simp only [h0, if_false]
      exact ih (n / 10) _ hd

/-- The decimal rendering of an integer is written unescaped. -/
theorem QueryEscape_Itoa (n : Int) : QueryEscape (Itoa n) = Itoa n := by
  apply QueryEscape_of_plain
  intro b hb
  apply escapeByte_digit
  cases n with
  | ofNat k =>
    left
    exact decimalDigits_digits _ _ [] (by simp) b hb
  | negSucc k =>
    simp only [Itoa, List.mem_cons] at hb
    rcases hb with rfl | hb
    · right; rfl
    · left
      exact decimalDigits_digits _ _ [] (by simp) b hb

/-- The query string of `Search` for a nil filter. -/
theorem searchQuery_none (startAt maxResults : Int) :
    searchQuery none startAt maxResults
      = str "maxResults=" ++ Itoa maxResults ++ str "&startAt=" ++ Itoa startAt := by
  have h1 : QueryEscape (str "maxResults") ++ [(61 : Byte)] = str "maxResults=" := by decide
  have h2 : (38 : Byte) :: (QueryEscape (str "startAt") ++ [(61 : Byte)]) = str "&startAt=" := by
    decide
  rw [searchQuery, Encode_eq_Join, sortedPairs_searchParams_none, ← h1, ← h2]
  simp [Join, encodePair, QueryEscape_Itoa]

/-- The filter with every component empty sends what the nil filter sends. -/
theorem searchParams_empty (startAt maxResults : Int) :
    searchParams (some ⟨[], [], [], [], []⟩) startAt maxResults
      = searchParams none startAt maxResults := by
  rfl

/-! ## Concrete renderings -/

theorem Itoa_examples :
    Itoa 0 = str "0" ∧ Itoa 50 = str "50" ∧ Itoa (-15) = str "-15" ∧
      Itoa 1234567 = str "1234567" := by
  decide

theorem QueryEscape_examples :
    QueryEscape (str "a,b") = str "a%2Cb" ∧ QueryEscape (str "a b&c=d") = str "a+b%26c%3Dd" ∧
      QueryEscape (str "A-z_0.9~") = str "A-z_0.9~" := by
  decide

theorem Encode_example :
    Values.Encode (Values.Add (Values.Add (Values.Add [] (str "startAt") (str "0"))
      (str "maxResults") (str "50")) (str "startAt") (str "1"))
      = str "maxResults=50&startAt=0&startAt=1" := by
  decide

/-! ## Delete without an identifier -/

/-- C1: `Delete` called with the empty field identifier returns a nil task, a
nil response envelope and `ErrNoFieldIDError`, and leaves the world (transport
state and trace) as it was, so neither `NewRequest` nor `Call` is invoked;
the same holds for the facade `IssueFieldService` over the implementation. -/
theorem C1_delete_empty_identifier {S : Schemes} {σ : Type}
    (i : internalIssueFieldServiceImpl S σ) (ctx : S.Context) (w : World S σ)
    (configuration : Option S.IssueFieldConfigService)
    (context : Option S.IssueFieldContextService) :
    i.Delete ctx [] w = ((none, none, some S.ErrNoFieldIDError), w) ∧
    noNetwork (performed w (i.Delete ctx [] w).2) ∧
    (IssueFieldService.mk i.asField configuration context).Delete ctx [] w
      = ((none, none, some S.ErrNoFieldIDError), w) ∧
    noNetwork (performed w
      ((IssueFieldService.mk i.asField configuration context).Delete ctx [] w).2) := by
  have h : (IssueFieldService.mk i.asField configuration context).Delete ctx [] w
      = i.Delete ctx [] w := rfl
  rw [h, Delete_empty]
  simp [noNetwork, performed_self]


/-! ## The query string, claim by claim -/

theorem valuesOf_append (key : GoString) (a b : List (GoString × GoString)) :
    valuesOf key (a ++ b) = valuesOf key a ++ valuesOf key b := by
  simp [valuesOf]

theorem valuesOf_optional (key k v : GoString) (c : Prop) [Decidable c] :
    valuesOf key (if c then [] else [(k, v)]) = if c then [] else valuesOf key [(k, v)] := by
  split_ifs <;> rfl

theorem valuesOf_single_eq (key v : GoString) : valuesOf key [(key, v)] = [v] := by
  simp [valuesOf]

theorem valuesOf_single_ne (key k v : GoString) (h : k ≠ key) : valuesOf key [(k, v)] = [] := by
  simp [valuesOf, h]

/-- Counterexample to C2 as stated: for the filter with `Types = ["a","b"]`,
start 0 and page size 50, the endpoint passed to `NewRequest` is
`rest/api/3/field/search?maxResults=50&startAt=0&type=a%2Cb`; neither the
endpoint nor the text after its `?` contains `type=a,b`, because
`Values.Encode` escapes the comma. -/
theorem C2_counterexample_comma_escaped :
    (performed mockWorld
        ((mockImpl okScript).Search 0 (some ⟨[], [str "a", str "b"], [], [], []⟩) 0 50
          mockWorld).2).filterMap Event.requestedEndpoint
      = [str "rest/api/3/field/search?maxResults=50&startAt=0&type=a%2Cb"] ∧
    (Cut 63 (str "rest/api/3/field/search?maxResults=50&startAt=0&type=a%2Cb")).2
      = str "maxResults=50&startAt=0&type=a%2Cb" ∧
    ¬ (str "type=a,b" <:+: str "maxResults=50&startAt=0&type=a%2Cb") ∧
    ¬ (str "type=a,b" <:+: str "rest/api/3/field/search?maxResults=50&startAt=0&type=a%2Cb") := by
  refine ⟨?_, ?_, ?_, ?_⟩ <;> decide

/-- C2, amended: for every start, page size, version and other filter
components, `Search` called with a filter whose `Types` is `["a","b"]` passes
to `NewRequest` an endpoint whose query string (the text after
`rest/api/v/field/search?`) contains `type=a%2Cb`, the comma being escaped; it
is the last parameter of the query string. -/
theorem C2_types_parameter {S : Schemes} {σ : Type} (i : internalIssueFieldServiceImpl S σ)
    (ctx : S.Context) (w : World S σ) (expand ids : List GoString) (orderBy query : GoString)
    (startAt maxResults : Int) :
    ∃ q rq er rest,
      performed w
          (i.Search ctx (some ⟨expand, [str "a", str "b"], ids, orderBy, query⟩) startAt
            maxResults w).2
        = Event.NewRequest ctx (str "GET")
            (str "rest/api/" ++ i.version ++ str "/field/search?" ++ q) none rq er :: rest ∧
      str "type=a%2Cb" <:+: q ∧ str "&type=a%2Cb" <:+ q := by
  obtain ⟨rq, er, rest, hp⟩ := Search_first_event i ctx
    (some ⟨expand, [str "a", str "b"], ids, orderBy, query⟩) startAt maxResults w
  refine ⟨_, rq, er, rest, hp, ?_⟩
  have hs : ∃ front, front ≠ [] ∧
      sortedPairs (searchParams (some ⟨expand, [str "a", str "b"], ids, orderBy, query⟩)
        startAt maxResults) = front ++ [(str "type", str "a,b")] := by
    have hj : Join [str "a", str "b"] (str ",") = str "a,b" := by decide
    refine ⟨(if expand = [] then [] else [(str "expand", Join expand (str ","))]) ++
      (if ids = [] then [] else [(str "id", Join ids (str ","))]) ++
      [(str "maxResults", Itoa maxResults)] ++
      (if orderBy = [] then [] else [(str "orderBy", orderBy)]) ++
      (if query = [] then [] else [(str "query", query)]) ++
      [(str "startAt", Itoa startAt)], by simp, ?_⟩
    rw [sortedPairs_searchParams]
    simp [hj]
  obtain ⟨front, hne, hfront⟩ := hs
  have he : encodePair (str "type", str "a,b") = str "type=a%2Cb" := by decide
  have hq : searchQuery (some ⟨expand, [str "a", str "b"], ids, orderBy, query⟩) startAt
      maxResults = Join (front.map encodePair) [38] ++ [38] ++ str "type=a%2Cb" := by
    rw [searchQuery, Encode_eq_Join, hfront, List.map_append, List.map_singleton,
      Join_snoc _ _ _ (by simpa using hne), he]
  have h2 : (38 : Byte) :: str "type=a%2Cb" = str "&type=a%2Cb" := by decide
  rw [hq]
  constructor
  · exact ⟨Join (front.map encodePair) [38] ++ [38], [], by simp⟩
  · exact ⟨Join (front.map encodePair) [38], by rw [← h2]; simp⟩

/-- C3: for every start and page size, negative or zero included, `Search`
called with a nil filter, or with a filter whose five components are empty,
passes to `NewRequest` the query string `maxResults=M&startAt=S`, where `M` and
`S` are the decimal renderings of the page size and of the start; decoded, it
holds exactly the two parameters `maxResults` and `startAt` with these values. -/
theorem C3_only_pagination {S : Schemes} {σ : Type} (i : internalIssueFieldServiceImpl S σ)
    (ctx : S.Context) (w : World S σ) (startAt maxResults : Int) :
    (∀ options, options = none ∨ options = some ⟨[], [], [], [], []⟩ →
      (∃ rq er rest,
        performed w (i.Search ctx options startAt maxResults w).2
          = Event.NewRequest ctx (str "GET")
              (str "rest/api/" ++ i.version ++ str "/field/search?"
                ++ (str "maxResults=" ++ Itoa maxResults ++ str "&startAt=" ++ Itoa startAt))
              none rq er :: rest) ∧
      searchQuery options startAt maxResults
        = str "maxResults=" ++ Itoa maxResults ++ str "&startAt=" ++ Itoa startAt ∧
      ParseQuery (searchQuery options startAt maxResults)
        = [(str "maxResults", Itoa maxResults), (str "startAt", Itoa startAt)]) := by
  intro options ho
  have hq : searchQuery options startAt maxResults = searchQuery none startAt maxResults := by
    rcases ho with rfl | rfl
    · rfl
    · rw [searchQuery, searchParams_empty]
      rfl
  obtain ⟨rq, er, rest, hp⟩ := Search_first_event i ctx options startAt maxResults w
  rw [hq, searchQuery_none] at hp
  refine ⟨⟨rq, er, rest, hp⟩, ?_, ?_⟩
  · rw [hq, searchQuery_none]
  · rw [hq, searchQuery, ParseQuery_Encode, sortedPairs_searchParams_none]

/-- Witness of C3: start −5 and page size 0 with the empty filter give the
query string `maxResults=0&startAt=-5`. -/
theorem C3_only_pagination_witness :
    searchQuery (some ⟨[], [], [], [], []⟩) (-5) 0 = str "maxResults=0&startAt=-5" ∧
    ParseQuery (searchQuery (some ⟨[], [], [], [], []⟩) (-5) 0)
      = [(str "maxResults", str "0"), (str "startAt", str "-5")] := by
  have h := (C3_only_pagination (mockImpl okScript) 0 mockWorld (-5) 0
    (some ⟨[], [], [], [], []⟩) (Or.inr rfl)).2
  have e1 : str "maxResults=" ++ Itoa 0 ++ str "&startAt=" ++ Itoa (-5)
      = str "maxResults=0&startAt=-5" := by decide
  have e2 : Itoa 0 = str "0" := by decide
  have e3 : Itoa (-5) = str "-5" := by decide
  rw [e1, e2, e3] at h
  exact h

/-- C4: for every non-nil filter, start and page size, the query string that
`Search` passes to `NewRequest`, once decoded, gives to each of `expand`,
`type`, `id`, `orderBy` and `query` no value when the corresponding component
of the filter is empty and exactly one value otherwise: the elements joined by
commas, in their order, for `Expand`, `Types` and `IDs`, and the component
itself for `OrderBy` and `Query`. -/
theorem C4_filter_parameters {S : Schemes} {σ : Type} (i : internalIssueFieldServiceImpl S σ)
    (ctx : S.Context) (w : World S σ) (o : FieldSearchOptionsScheme)
    (startAt maxResults : Int) :
    ∃ q rq er rest,
      performed w (i.Search ctx (some o) startAt maxResults w).2
        = Event.NewRequest ctx (str "GET")
            (str "rest/api/" ++ i.version ++ str "/field/search?" ++ q) none rq er :: rest ∧
      valuesOf (str "expand") (ParseQuery q)
        = (if o.Expand = [] then [] else [Join o.Expand (str ",")]) ∧
      valuesOf (str "type") (ParseQuery q)
        = (if o.Types = [] then [] else [Join o.Types (str ",")]) ∧
      valuesOf (str "id") (ParseQuery q)
        = (if o.IDs = [] then [] else [Join o.IDs (str ",")]) ∧
      valuesOf (str "orderBy") (ParseQuery q) = (if o.OrderBy = [] then [] else [o.OrderBy]) ∧
      valuesOf (str "query") (ParseQuery q) = (if o.Query = [] then [] else [o.Query]) := by
  obtain ⟨rq, er, rest, hp⟩ := Search_first_event i ctx (some o) startAt maxResults w
  refine ⟨_, rq, er, rest, hp, ?_⟩
  rw [searchQuery, ParseQuery_Encode, sortedPairs_searchParams]
  refine ⟨?_, ?_, ?_, ?_, ?_⟩ <;>
    simp only [valuesOf_append, valuesOf_optional] <;>
    simp (disch := decide) only [valuesOf_single_ne, valuesOf_single_eq, List.append_nil,
      List.nil_append, ite_self]

/-! ## Errors of the transport -/

/-- C5: in each of `Gets`, `Create`, `Search` and `Delete`, when the `Call`
made by the operation (which is made only once the request is built) returns
an error `e` with a response envelope `r`, the operation returns a nil output,
the envelope `r` and the error `e`, whatever `Call` left in the container. -/
theorem C5_call_error_propagated {S : Schemes} {σ : Type}
    (i : internalIssueFieldServiceImpl S σ) (ctx : S.Context) (w : World S σ) :
    (∀ rq k before after r e,
      Event.Call rq k before after r (some e) ∈ performed w (i.Gets ctx w).2 →
      (i.Gets ctx w).1 = (none, r, some e)) ∧
    (∀ payload rq k before after r e,
      Event.Call rq k before after r (some e) ∈ performed w (i.Create ctx payload w).2 →
      (i.Create ctx payload w).1 = (none, r, some e)) ∧
    (∀ options startAt maxResults rq k before after r e,
      Event.Call rq k before after r (some e)
        ∈ performed w (i.Search ctx options startAt maxResults w).2 →
      (i.Search ctx options startAt maxResults w).1 = (none, r, some e)) ∧
    (∀ fieldId rq k before after r e,
      Event.Call rq k before after r (some e) ∈ performed w (i.Delete ctx fieldId w).2 →
      (i.Delete ctx fieldId w).1 = (none, r, some e)) := by
  refine ⟨?_, ?_, ?_, ?_⟩
  · intro rq k before after r e h
    rcases Gets_cases i ctx w with ⟨_, _, hp, hr⟩ | ⟨_, _, _, _, hp, hr⟩ | ⟨_, _, _, hp, hr⟩ <;>
      rw [hp] at h <;> rw [hr] <;> simp at h
    obtain ⟨_, _, _, _, h5, h6⟩ := h
    rw [h5, h6]
  · intro payload rq k before after r e h
    rcases Create_cases i ctx payload w with
      ⟨_, _, hp, hr⟩ | ⟨_, _, _, hp, hr⟩ | ⟨_, _, _, _, _, hp, hr⟩ | ⟨_, _, _, _, hp, hr⟩ <;>
      rw [hp] at h <;> rw [hr] <;> simp at h
    obtain ⟨_, _, _, _, h5, h6⟩ := h
    rw [h5, h6]
  · intro options startAt maxResults rq k before after r e h
    rcases Search_cases i ctx options startAt maxResults w with
      ⟨_, _, hp, hr⟩ | ⟨_, _, _, _, hp, hr⟩ | ⟨_, _, _, hp, hr⟩ <;>
      rw [hp] at h <;> rw [hr] <;> simp at h
    obtain ⟨_, _, _, _, h5, h6⟩ := h
    rw [h5, h6]
  · intro fieldId rq k before after r e h
    rcases Delete_runs i ctx fieldId w with
      ⟨hp, hr⟩ | ⟨_, _, hp, hr⟩ | ⟨_, _, _, _, hp, hr⟩ | ⟨_, _, _, hp, hr⟩ <;>
      rw [hp] at h <;> rw [hr] <;> simp at h
    obtain ⟨_, _, _, _, h5, h6⟩ := h
    rw [h5, h6]

/-- Witness of C5 on the scripted transport whose `Call` fails with error 5
and a 400 response. -/
theorem C5_call_error_propagated_witness :
    (Event.Call (S := mockSchemes) (some (str "GET", str "rest/api/3/field", none))
        Out.fields none (some [some 7, none, some 3])
        (some ⟨400, str "rest/api/3/field", str "bad"⟩) (some 5)
      ∈ performed mockWorld ((mockImpl callFailScript).Gets 0 mockWorld).2) ∧
    ((mockImpl callFailScript).Gets 0 mockWorld).1
      = (none, some ⟨400, str "rest/api/3/field", str "bad"⟩, some 5) ∧
    ((mockImpl callFailScript).Create 0 (some 1) mockWorld).1
      = (none, some ⟨400, str "rest/api/3/field", str "bad"⟩, some 5) ∧
    ((mockImpl callFailScript).Search 0 none 0 50 mockWorld).1
      = (none, some ⟨400, str "rest/api/3/field", str "bad"⟩, some 5) ∧
    ((mockImpl callFailScript).Delete 0 (str "customfield_10038") mockWorld).1
      = (none, some ⟨400, str "rest/api/3/field", str "bad"⟩, some 5) :=
  ⟨List.Mem.tail _ (List.Mem.head _),
    (C5_call_error_propagated (mockImpl callFailScript) 0 mockWorld).1 _ _ _ _ _ _
      (List.Mem.tail _ (List.Mem.head _)),
    (C5_call_error_propagated (mockImpl callFailScript) 0 mockWorld).2.1 (some 1) _ _ _ _ _ _
      (List.Mem.tail _ (List.Mem.tail _ (List.Mem.head _))),
    (C5_call_error_propagated (mockImpl callFailScript) 0 mockWorld).2.2.1 none 0 50 _ _ _ _ _ _
      (List.Mem.tail _ (List.Mem.head _)),
    (C5_call_error_propagated (mockImpl callFailScript) 0 mockWorld).2.2.2
      (str "customfield_10038") _ _ _ _ _ _
      (List.Mem.tail _ (List.Mem.head _))⟩

/-- C6: in each of `Gets`, `Create`, `Search` and `Delete`, when the `Call`
made by the operation returns no error, the operation returns a nil error, the
response envelope that `Call` returned, and the container as `Call` left it:
the slice itself for `Gets`, a non-nil pointer to the record for the others. -/
theorem C6_success_returns_output {S : Schemes} {σ : Type}
    (i : internalIssueFieldServiceImpl S σ) (ctx : S.Context) (w : World S σ) :
    (∀ rq before after r,
      Event.Call rq Out.fields before after r none ∈ performed w (i.Gets ctx w).2 →
      (i.Gets ctx w).1 = (after, r, none)) ∧
    (∀ payload rq before after r,
      Event.Call rq Out.field before after r none ∈ performed w (i.Create ctx payload w).2 →
      (i.Create ctx payload w).1 = (some after, r, none)) ∧
    (∀ options startAt maxResults rq before after r,
      Event.Call rq Out.page before after r none
        ∈ performed w (i.Search ctx options startAt maxResults w).2 →
      (i.Search ctx options startAt maxResults w).1 = (some after, r, none)) ∧
    (∀ fieldId rq before after r,
      Event.Call rq Out.task before after r none ∈ performed w (i.Delete ctx fieldId w).2 →
      (i.Delete ctx fieldId w).1 = (some after, r, none)) := by
  refine ⟨?_, ?_, ?_, ?_⟩
  · intro rq before after r h
    rcases Gets_cases i ctx w with ⟨_, _, hp, hr⟩ | ⟨_, _, _, _, hp, hr⟩ | ⟨_, _, _, hp, hr⟩ <;>
      rw [hp] at h <;> rw [hr] <;> simp at h
    obtain ⟨_, _, h4, h5⟩ := h
    rw [h4, h5]
  · intro payload rq before after r h
    rcases Create_cases i ctx payload w with
      ⟨_, _, hp, hr⟩ | ⟨_, _, _, hp, hr⟩ | ⟨_, _, _, _, _, hp, hr⟩ | ⟨_, _, _, _, hp, hr⟩ <;>
      rw [hp] at h <;> rw [hr] <;> simp at h
    obtain ⟨_, _, h4, h5⟩ := h
    rw [h4, h5]
  · intro options startAt maxResults rq before after r h
    rcases Search_cases i ctx options startAt maxResults w with
      ⟨_, _, hp, hr⟩ | ⟨_, _, _, _, hp, hr⟩ | ⟨_, _, _, hp, hr⟩ <;>
      rw [hp] at h <;> rw [hr] <;> simp at h
    obtain ⟨_, _, h4, h5⟩ := h
    rw [h4, h5]
  · intro fieldId rq before after r h
    rcases Delete_runs i ctx fieldId w with
      ⟨hp, hr⟩ | ⟨_, _, hp, hr⟩ | ⟨_, _, _, _, hp, hr⟩ | ⟨_, _, _, hp, hr⟩ <;>
      rw [hp] at h <;> rw [hr] <;> simp at h
    obtain ⟨_, _, h4, h5⟩ := h
    rw [h4, h5]

/-- Witness of C6 on the scripted transport in which every step succeeds with
a 200 response. -/
theorem C6_success_returns_output_witness :
    (Event.Call (S := mockSchemes) (some (str "GET", str "rest/api/3/field", none))
        Out.fields none (some [some 7, none, some 3])
        (some ⟨200, str "rest/api/3/field", str "[]"⟩) none
      ∈ performed mockWorld ((mockImpl okScript).Gets 0 mockWorld).2) ∧
    ((mockImpl okScript).Gets 0 mockWorld).1
      = (some [some 7, none, some 3], some ⟨200, str "rest/api/3/field", str "[]"⟩, none) ∧
    ((mockImpl okScript).Create 0 (some 1) mockWorld).1
      = (some 7, some ⟨200, str "rest/api/3/field", str "[]"⟩, none) ∧
    ((mockImpl okScript).Search 0 none 0 50 mockWorld).1
      = (some 8, some ⟨200, str "rest/api/3/field", str "[]"⟩, none) ∧
    ((mockImpl okScript).Delete 0 (str "customfield_10038") mockWorld).1
      = (some 9, some ⟨200, str "rest/api/3/field", str "[]"⟩, none) :=
  ⟨List.Mem.tail _ (List.Mem.head _),
    (C6_success_returns_output (mockImpl okScript) 0 mockWorld).1 _ _ _ _
      (List.Mem.tail _ (List.Mem.head _)),
    (C6_success_returns_output (mockImpl okScript) 0 mockWorld).2.1 (some 1) _ _ _ _
      (List.Mem.tail _ (List.Mem.tail _ (List.Mem.head _))),
    (C6_success_returns_output (mockImpl okScript) 0 mockWorld).2.2.1 none 0 50 _ _ _ _
      (List.Mem.tail _ (List.Mem.head _)),
    (C6_success_returns_output (mockImpl okScript) 0 mockWorld).2.2.2
      (str "customfield_10038") _ _ _ _
      (List.Mem.tail _ (List.Mem.head _))⟩

/-- C8: when the `TransformStructToReader` made by `Create` fails with error
`e`, `Create` returns a nil field, a nil response envelope and `e`, and invokes
neither `NewRequest` nor `Call`. -/
theorem C8_serialization_error {S : Schemes} {σ : Type}
    (i : internalIssueFieldServiceImpl S σ) (ctx : S.Context)
    (payload : Option S.CustomFieldScheme) (w : World S σ)
    (p : Option S.CustomFieldScheme) (rd : Option S.Reader) (e : S.Error)
    (h : Event.TransformStructToReader p rd (some e)
      ∈ performed w (i.Create ctx payload w).2) :
    (i.Create ctx payload w).1 = (none, none, some e) ∧
    noNetwork (performed w (i.Create ctx payload w).2) := by
  rcases Create_cases i ctx payload w with
    ⟨_, _, hp, hr⟩ | ⟨_, _, _, hp, hr⟩ | ⟨_, _, _, _, _, hp, hr⟩ | ⟨_, _, _, _, hp, hr⟩ <;>
    rw [hp] at h ⊢ <;> rw [hr] <;> simp at h
  obtain ⟨_, _, h3⟩ := h
  rw [h3]
  simp [noNetwork, Event.isNewRequest, Event.isCall]

/-- Witness of C8 on the scripted transport whose serialization fails with
error 3. -/
theorem C8_serialization_error_witness :
    (Event.TransformStructToReader (S := mockSchemes) (some 1) (some 1) (some 3)
      ∈ performed mockWorld ((mockImpl transformFailScript).Create 0 (some 1) mockWorld).2) ∧
    ((mockImpl transformFailScript).Create 0 (some 1) mockWorld).1 = (none, none, some 3) ∧
    noNetwork (performed mockWorld
      ((mockImpl transformFailScript).Create 0 (some 1) mockWorld).2) :=
  ⟨List.Mem.head _,
    C8_serialization_error (mockImpl transformFailScript) 0 (some 1) mockWorld
      (some 1) (some 1) 3 (List.Mem.head _)⟩

/-- C10: in each of `Gets`, `Create`, `Search` and `Delete`, when the
`NewRequest` made by the operation fails with error `e`, the operation returns
a nil output, a nil response envelope and `e`, and never invokes `Call`. -/
theorem C10_request_error {S : Schemes} {σ : Type}
    (i : internalIssueFieldServiceImpl S σ) (ctx : S.Context) (w : World S σ) :
    (∀ cx m ep b rq e,
      Event.NewRequest cx m ep b rq (some e) ∈ performed w (i.Gets ctx w).2 →
      (i.Gets ctx w).1 = (none, none, some e) ∧
        (performed w (i.Gets ctx w).2).countP Event.isCall = 0) ∧
    (∀ payload cx m ep b rq e,
      Event.NewRequest cx m ep b rq (some e) ∈ performed w (i.Create ctx payload w).2 →
      (i.Create ctx payload w).1 = (none, none, some e) ∧
        (performed w (i.Create ctx payload w).2).countP Event.isCall = 0) ∧
    (∀ options startAt maxResults cx m ep b rq e,
      Event.NewRequest cx m ep b rq (some e)
        ∈ performed w (i.Search ctx options startAt maxResults w).2 →
      (i.Search ctx options startAt maxResults w).1 = (none, none, some e) ∧
        (performed w (i.Search ctx options startAt maxResults w).2).countP Event.isCall
          = 0) ∧
    (∀ fieldId cx m ep b rq e,
      Event.NewRequest cx m ep b rq (some e) ∈ performed w (i.Delete ctx fieldId w).2 →
      (i.Delete ctx fieldId w).1 = (none, none, some e) ∧
        (performed w (i.Delete ctx fieldId w).2).countP Event.isCall = 0) := by
  refine ⟨?_, ?_, ?_, ?_⟩
  · intro cx m ep b rq e h
    rcases Gets_cases i ctx w with ⟨_, _, hp, hr⟩ | ⟨_, _, _, _, hp, hr⟩ | ⟨_, _, _, hp, hr⟩ <;>
      rw [hp] at h ⊢ <;> rw [hr] <;> simp at h
    obtain ⟨_, _, _, _, _, h6⟩ := h
    rw [h6]
    simp [Event.isCall]
  · intro payload cx m ep b rq e h
    rcases Create_cases i ctx payload w with
      ⟨_, _, hp, hr⟩ | ⟨_, _, _, hp, hr⟩ | ⟨_, _, _, _, _, hp, hr⟩ | ⟨_, _, _, _, hp, hr⟩ <;>
      rw [hp] at h ⊢ <;> rw [hr] <;> simp at h
    obtain ⟨_, _, _, _, _, h6⟩ := h
    rw [h6]
    simp [Event.isCall]
  · intro options startAt maxResults cx m ep b rq e h
    rcases Search_cases i ctx options startAt maxResults w with
      ⟨_, _, hp, hr⟩ | ⟨_, _, _, _, hp, hr⟩ | ⟨_, _, _, hp, hr⟩ <;>
      rw [hp] at h ⊢ <;> rw [hr] <;> simp at h
    obtain ⟨_, _, _, _, _, h6⟩ := h
    rw [h6]
    simp [Event.isCall]
  · intro fieldId cx m ep b rq e h
    rcases Delete_runs i ctx fieldId w with
      ⟨hp, hr⟩ | ⟨_, _, hp, hr⟩ | ⟨_, _, _, _, hp, hr⟩ | ⟨_, _, _, hp, hr⟩ <;>
      rw [hp] at h ⊢ <;> rw [hr] <;> simp at h
    obtain ⟨_, _, _, _, _, h6⟩ := h
    rw [h6]
    simp [Event.isCall]

/-- Witness of C10 on the scripted transport whose `NewRequest` fails with
error 4. -/
theorem C10_request_error_witness :
    (Event.NewRequest (S := mockSchemes) (0 : Nat) (str "GET") (str "rest/api/3/field") none
        (some (str "GET", str "rest/api/3/field", none)) (some 4)
      ∈ performed mockWorld ((mockImpl requestFailScript).Gets 0 mockWorld).2) ∧
    (((mockImpl requestFailScript).Gets 0 mockWorld).1 = (none, none, some 4) ∧
      (performed mockWorld ((mockImpl requestFailScript).Gets 0 mockWorld).2).countP
        Event.isCall = 0) ∧
    (((mockImpl requestFailScript).Create 0 (some 1) mockWorld).1 = (none, none, some 4) ∧
      (performed mockWorld ((mockImpl requestFailScript).Create 0 (some 1) mockWorld).2).countP
        Event.isCall = 0) ∧
    (((mockImpl requestFailScript).Search 0 none 0 50 mockWorld).1 = (none, none, some 4) ∧
      (performed mockWorld ((mockImpl requestFailScript).Search 0 none 0 50 mockWorld).2).countP
        Event.isCall = 0) ∧
    (((mockImpl requestFailScript).Delete 0 (str "customfield_10038") mockWorld).1
        = (none, none, some 4) ∧
      (performed mockWorld
        ((mockImpl requestFailScript).Delete 0 (str "customfield_10038") mockWorld).2).countP
        Event.isCall = 0) :=
  ⟨List.Mem.head _,
    (C10_request_error (mockImpl requestFailScript) 0 mockWorld).1 _ _ _ _ _ _
      (List.Mem.head _),
    (C10_request_error (mockImpl requestFailScript) 0 mockWorld).2.1 (some 1) _ _ _ _ _ _
      (List.Mem.tail _ (List.Mem.head _)),
    (C10_request_error (mockImpl requestFailScript) 0 mockWorld).2.2.1 none 0 50 _ _ _ _ _ _
      (List.Mem.head _),
    (C10_request_error (mockImpl requestFailScript) 0 mockWorld).2.2.2
      (str "customfield_10038") _ _ _ _ _ _ (List.Mem.head _)⟩

/-! ## Verbs and paths -/

/-- Counterexample to C7 as stated: on a transport whose serialization fails,
`Create` invokes `TransformStructToReader` only, so it makes no `NewRequest`
at all instead of exactly one. -/
theorem C7_counterexample_create_without_request :
    (performed mockWorld ((mockImpl transformFailScript).Create 0 (some 1) mockWorld).2).countP
        Event.isNewRequest = 0 ∧
    ¬ oneRequest
        (performed mockWorld ((mockImpl transformFailScript).Create 0 (some 1) mockWorld).2)
        (0 : Nat) (str "POST") (str "rest/api/3/field") (some 1) := by
  have h : performed mockWorld ((mockImpl transformFailScript).Create 0 (some 1) mockWorld).2
      = [Event.TransformStructToReader (some 1) (some 1) (some 3)] := rfl
  rw [h]
  simp [oneRequest, Event.isNewRequest]

/-- C7, amended: `Gets` makes exactly one `NewRequest`, a GET of
`rest/api/v/field` without body, and at most one `Call`; `Create`, when its
serialization returns the reader `rd` without error, makes exactly one
`NewRequest`, a POST of `rest/api/v/field` with body `rd`, and at most one
`Call`; `Search` makes exactly one `NewRequest`, a GET of
`rest/api/v/field/search?` followed by the query string, without body, and at
most one `Call`; `Delete` with a non-empty identifier `f` makes exactly one
`NewRequest`, a DELETE of `rest/api/v/field/f` without body, and at most one
`Call`. -/
theorem C7_verbs_and_paths {S : Schemes} {σ : Type}
    (i : internalIssueFieldServiceImpl S σ) (ctx : S.Context) (w : World S σ) :
    oneRequest (performed w (i.Gets ctx w).2) ctx (str "GET")
      (str "rest/api/" ++ i.version ++ str "/field") none ∧
    (∀ payload p rd,
      Event.TransformStructToReader p rd none ∈ performed w (i.Create ctx payload w).2 →
      oneRequest (performed w (i.Create ctx payload w).2) ctx (str "POST")
        (str "rest/api/" ++ i.version ++ str "/field") rd) ∧
    (∀ options startAt maxResults,
      oneRequest (performed w (i.Search ctx options startAt maxResults w).2) ctx (str "GET")
        (str "rest/api/" ++ i.version ++ str "/field/search?"
          ++ searchQuery options startAt maxResults) none) ∧
    (∀ fieldId, fieldId ≠ [] →
      oneRequest (performed w (i.Delete ctx fieldId w).2) ctx (str "DELETE")
        (str "rest/api/" ++ i.version ++ str "/field/" ++ fieldId) none) := by
  refine ⟨?_, ?_, ?_, ?_⟩
  · rcases Gets_cases i ctx w with ⟨_, _, hp, _⟩ | ⟨_, _, _, _, hp, _⟩ | ⟨_, _, _, hp, _⟩ <;>
      rw [hp] <;> simp [oneRequest, Event.isNewRequest, Event.isCall, http.MethodGet]
  · intro payload p rd h
    rcases Create_cases i ctx payload w with
      ⟨_, _, hp, _⟩ | ⟨_, _, _, hp, _⟩ | ⟨_, _, _, _, _, hp, _⟩ | ⟨_, _, _, _, hp, _⟩ <;>
      rw [hp] at h ⊢ <;> simp at h <;> obtain ⟨_, h2⟩ := h <;> subst h2 <;>
      simp [oneRequest, Event.isNewRequest, Event.isCall, http.MethodPost]
  · intro options startAt maxResults
    rcases Search_cases i ctx options startAt maxResults w with
      ⟨_, _, hp, _⟩ | ⟨_, _, _, _, hp, _⟩ | ⟨_, _, _, hp, _⟩ <;>
      rw [hp] <;> simp [oneRequest, Event.isNewRequest, Event.isCall, http.MethodGet]
  · intro fieldId hf
    rcases Delete_cases i ctx fieldId hf w with
      ⟨_, _, hp, _⟩ | ⟨_, _, _, _, hp, _⟩ | ⟨_, _, _, hp, _⟩ <;>
      rw [hp] <;> simp [oneRequest, Event.isNewRequest, Event.isCall, http.MethodDelete]

/-- Witness of C7 on the scripted transport in which every step succeeds. -/
theorem C7_verbs_and_paths_witness :
    (Event.TransformStructToReader (S := mockSchemes) (some 1) (some 1) none
      ∈ performed mockWorld ((mockImpl okScript).Create 0 (some 1) mockWorld).2) ∧
    oneRequest (performed mockWorld ((mockImpl okScript).Create 0 (some 1) mockWorld).2)
      (0 : Nat) (str "POST") (str "rest/api/" ++ str "3" ++ str "/field") (some 1) ∧
    str "customfield_10038" ≠ [] ∧
    oneRequest
      (performed mockWorld ((mockImpl okScript).Delete 0 (str "customfield_10038") mockWorld).2)
      (0 : Nat) (str "DELETE")
      (str "rest/api/" ++ str "3" ++ str "/field/" ++ str "customfield_10038") none :=
  ⟨List.Mem.head _,
    (C7_verbs_and_paths (mockImpl okScript) 0 mockWorld).2.1 (some 1) (some 1) (some 1)
      (List.Mem.head _),
    by decide,
    (C7_verbs_and_paths (mockImpl okScript) 0 mockWorld).2.2.2 (str "customfield_10038")
      (by decide)⟩

/-! ## The constructor -/

/-- C9: `NewIssueFieldService` returns a nil service and `ErrNoVersionProvided`
if and only if the version is empty, and in every case leaves the world as it
was; for a non-empty version it returns, with a nil error, a service that
holds the given `Configuration` and `Context` and whose four operations are
those of the implementation for that client and that version, so that every
endpoint they pass to `NewRequest` is built from exactly that version. -/
theorem C9_constructor {S : Schemes} {σ : Type} (client : Client S σ) (version : GoString)
    (configuration : Option S.IssueFieldConfigService)
    (context : Option S.IssueFieldContextService) (w : World S σ) :
    (NewIssueFieldService client version configuration context w).2 = w ∧
    (((NewIssueFieldService client version configuration context w).1.1.isNone = true ∧
        (NewIssueFieldService client version configuration context w).1.2
          = some S.ErrNoVersionProvided) ↔ version = []) ∧
    (version ≠ [] →
      ∃ svc : IssueFieldService S σ,
        (NewIssueFieldService client version configuration context w).1 = (some svc, none) ∧
        svc.Configuration = configuration ∧ svc.Context = context ∧
        (∀ ctx w1, svc.Gets ctx w1
          = internalIssueFieldServiceImpl.Gets ⟨client, version⟩ ctx w1) ∧
        (∀ ctx payload w1, svc.Create ctx payload w1
          = internalIssueFieldServiceImpl.Create ⟨client, version⟩ ctx payload w1) ∧
        (∀ ctx options startAt maxResults w1, svc.Search ctx options startAt maxResults w1
          = internalIssueFieldServiceImpl.Search ⟨client, version⟩ ctx options startAt
              maxResults w1) ∧
        (∀ ctx fieldId w1, svc.Delete ctx fieldId w1
          = internalIssueFieldServiceImpl.Delete ⟨client, version⟩ ctx fieldId w1) ∧
        (∀ ctx w1 cx m ep b rq er,
          Event.NewRequest cx m ep b rq er ∈ performed w1 (svc.Gets ctx w1).2 →
          ep = str "rest/api/" ++ version ++ str "/field") ∧
        (∀ ctx payload w1 cx m ep b rq er,
          Event.NewRequest cx m ep b rq er ∈ performed w1 (svc.Create ctx payload w1).2 →
          ep = str "rest/api/" ++ version ++ str "/field") ∧
        (∀ ctx options startAt maxResults w1 cx m ep b rq er,
          Event.NewRequest cx m ep b rq er
            ∈ performed w1 (svc.Search ctx options startAt maxResults w1).2 →
          ep = str "rest/api/" ++ version ++ str "/field/search?"
            ++ searchQuery options startAt maxResults) ∧
        (∀ ctx fieldId w1 cx m ep b rq er,
          Event.NewRequest cx m ep b rq er ∈ performed w1 (svc.Delete ctx fieldId w1).2 →
          ep = str "rest/api/" ++ version ++ str "/field/" ++ fieldId)) := by
  refine ⟨?_, ?_, ?_⟩
  · unfold NewIssueFieldService
    split <;> rfl
  · unfold NewIssueFieldService
    by_cases hv : version = []
    · simp [hv]
    · simp [hv]
  · intro hv
    refine ⟨⟨internalIssueFieldServiceImpl.asField ⟨client, version⟩, configuration, context⟩,
      ?_, rfl, rfl, fun _ _ => rfl, fun _ _ _ => rfl, fun _ _ _ _ _ => rfl,
      fun _ _ _ => rfl, ?_, ?_, ?_, ?_⟩
    · simp [NewIssueFieldService, hv]
    · intro ctx w1 cx m ep b rq er h
      change Event.NewRequest cx m ep b rq er ∈ performed w1
        (internalIssueFieldServiceImpl.Gets ⟨client, version⟩ ctx w1).2 at h
      rcases Gets_cases ⟨client, version⟩ ctx w1 with
        ⟨_, _, hp, _⟩ | ⟨_, _, _, _, hp, _⟩ | ⟨_, _, _, hp, _⟩ <;>
        rw [hp] at h <;> simp at h <;> exact h.2.2.1
    · intro ctx payload w1 cx m ep b rq er h
      change Event.NewRequest cx m ep b rq er ∈ performed w1
        (internalIssueFieldServiceImpl.Create ⟨client, version⟩ ctx payload w1).2 at h
      rcases Create_cases ⟨client, version⟩ ctx payload w1 with
        ⟨_, _, hp, _⟩ | ⟨_, _, _, hp, _⟩ | ⟨_, _, _, _, _, hp, _⟩ | ⟨_, _, _, _, hp, _⟩ <;>
        rw [hp] at h <;> simp at h <;> exact h.2.2.1
    · intro ctx options startAt maxResults w1 cx m ep b rq er h
      change Event.NewRequest cx m ep b rq er ∈ performed w1
        (internalIssueFieldServiceImpl.Search ⟨client, version⟩ ctx options startAt
          maxResults w1).2 at h
      rcases Search_cases ⟨client, version⟩ ctx options startAt maxResults w1 with
        ⟨_, _, hp, _⟩ | ⟨_, _, _, _, hp, _⟩ | ⟨_, _, _, hp, _⟩ <;>
        rw [hp] at h <;> simp at h <;> simp [h.2.2.1]
    · intro ctx fieldId w1 cx m ep b rq er h
      change Event.NewRequest cx m ep b rq er ∈ performed w1
        (internalIssueFieldServiceImpl.Delete ⟨client, version⟩ ctx fieldId w1).2 at h
      rcases Delete_runs ⟨client, version⟩ ctx fieldId w1 with
        ⟨hp, _⟩ | ⟨_, _, hp, _⟩ | ⟨_, _, _, _, hp, _⟩ | ⟨_, _, _, hp, _⟩ <;>
        rw [hp] at h <;> simp at h <;> simp [h.2.2.1]

/-- Witness of C9 for version 3 on the scripted transport: the service is
there, and its `Gets` asks for `rest/api/3/field`. -/
theorem C9_constructor_witness :
    str "3" ≠ [] ∧
    ∃ svc : IssueFieldService mockSchemes Nat,
      (NewIssueFieldService (mockClient okScript) (str "3") (some 11) (some 12) mockWorld).1
        = (some svc, none) ∧
      svc.Configuration = some 11 ∧ svc.Context = some 12 ∧
      (svc.Gets 0 mockWorld).1
        = (some [some 7, none, some 3], some ⟨200, str "rest/api/3/field", str "[]"⟩, none) := by
  refine ⟨by decide, ?_⟩
  obtain ⟨svc, h1, h2, h3, h4, _⟩ :=
    (C9_constructor (mockClient okScript) (str "3") (some 11) (some 12) mockWorld).2.2
      (by decide)
  exact ⟨svc, h1, h2, h3, by rw [h4]; rfl⟩

end IssueField
